import Mathlib

/-!
Verification development for the SEC EDGAR pipeline repository
(`src/fetch_10k_html_batch.py` and `src/partition_2_quarters.py`).

The Python code is shallowly embedded: Python dicts become association
lists, the object store (GCS or local filesystem) becomes a map from
path to stored blob, exceptions become `Except`, and the external
libraries the spec declares out of scope (HTTP transport, HTML parsing,
JSON codec, columnar writer) become explicit function parameters or
black-box contracts.  Machine integers in the scripts are Python ints
(arbitrary precision), so `Nat`/`Int` model them exactly.
-/

namespace EdgarPipeline

/-! ## Python values and dictionaries

`save_checkpoint` receives `Dict[str, Any]`.  For the checkpoint claims
we model the values that can appear: JSON numbers, JSON strings, and
objects that `json.dumps` cannot serialize (e.g. a `set`), which make
`json.dumps` raise `TypeError`. -/

inductive PyVal where
  | num (n : Int)
  | str (s : String)
  | unser (tag : String)
  deriving Repr, DecidableEq

/-- Insertion-ordered association-list update, the semantics of
`d[k] = v` on a Python dict (and of overwriting an object in a store):
overwrite the existing entry for `k` in place, otherwise append. -/
def alistUpd {κ β : Type} [DecidableEq κ] (l : List (κ × β)) (k : κ) (v : β) :
    List (κ × β) :=
  if l.any (fun kv => decide (kv.1 = k)) then
    l.map (fun kv => if kv.1 = k then (k, v) else kv)
  else
    l ++ [(k, v)]

/-- Association-list lookup: first entry with the given key. -/
def alistGet {κ β : Type} [DecidableEq κ] (l : List (κ × β)) (k : κ) : Option β :=
  (l.find? (fun kv => decide (kv.1 = k))).map (fun kv => kv.2)

/-- A Python dict with string keys, as an insertion-ordered association list. -/
abbrev StateD := List (String × PyVal)

/-- `d[k] = v` on a Python dict. -/
def dictInsert (d : StateD) (k : String) (v : PyVal) : StateD := alistUpd d k v

/-- `d.get(k)` on a Python dict. -/
def dictGet (d : StateD) (k : String) : Option PyVal := alistGet d k

/-- A value `json.dumps` accepts. -/
def serializable : PyVal → Bool
  | .unser _ => false
  | _ => true

/-- `json.dumps` contract: succeeds exactly when every value is
serializable, raising `TypeError` otherwise.  The payload round-trips
through `json.loads` unchanged (JSON codec is a black box per the spec). -/
def dumps (d : StateD) : Except String StateD :=
  if d.all (fun kv => serializable kv.2) then .ok d
  else .error "TypeError: Object of type set is not JSON serializable"

/-! ## The object store (GCS or local filesystem)

A stored checkpoint blob either deserializes back to a dict (`good`) or
its bytes fail `json.loads` (`bad`). -/

inductive Blob where
  | good (s : StateD)
  | bad
  deriving Repr, DecidableEq

abbrev Store := List (String × Blob)

def storeLookup (store : Store) (path : String) : Option Blob := alistGet store path

def storeInsert (store : Store) (path : String) (b : Blob) : Store :=
  alistUpd store path b

/-! ## Checkpoint store (`checkpoint_exists`, `load_checkpoint`, `save_checkpoint`) -/

/-- `checkpoint_exists(path)`: does an object exist at the path? -/
def checkpoint_exists (store : Store) (path : String) : Bool :=
  (storeLookup store path).isSome

/-- `load_checkpoint(path)`, result level: `None` when the object does not
exist, and `None` when reading/deserializing fails (caught and logged). -/
def load_checkpoint (store : Store) (path : String) : Option StateD :=
  if checkpoint_exists store path then
    match storeLookup store path with
    | some (.good s) => some s
    | some .bad => none
    | none => none
  else
    none

/-- `load_checkpoint(path)`, exception level: the existence check runs
outside the `try`, the read and `json.loads` run inside it, and the
`except` clause converts any exception into a logged `None`. -/
def load_checkpoint_run (store : Store) (path : String) :
    Except String (Option StateD) :=
  if checkpoint_exists store path then
    -- try: read bytes, json.loads; except: log and return None
    match storeLookup store path with
    | some (.good s) => .ok (some s)
    | some .bad => .ok none
    | none => .ok none
  else
    .ok none

/-- `save_checkpoint(path, state)`, exception level.  Mirrors the source
order: copy the dict, add `updated_at_unix`, `json.dumps` (OUTSIDE the
`try`, so its exception propagates), then the guarded write whose failure
is caught and logged.  `writeOk` models whether the storage write
succeeds; the returned list is the log output. -/
def save_checkpoint_run (now : Int) (writeOk : Bool) (store : Store)
    (path : String) (state : StateD) : Except String (Store × List String) := do
  let state2 := dictInsert state "updated_at_unix" (.num now)
  let payload ← dumps state2
  if writeOk then
    .ok (storeInsert store path (.good payload), [])
  else
    .ok (store, ["[WARN] Failed to save checkpoint " ++ path])

/-! ## Heap model for the caller's dict (frame property of `save_checkpoint`)

`save_checkpoint` does `state = dict(state)` before mutating, so the
caller's dict object is untouched.  We model Python references with an
explicit heap of dict objects. -/

abbrev Heap := List (Nat × StateD)

def heapGet (h : Heap) (r : Nat) : Option StateD := alistGet h r

def heapAddrs (h : Heap) : List Nat := h.map (fun kv => kv.1)

/-- An address not used by any live object. -/
def freshAddr (h : Heap) : Nat := (heapAddrs h).foldr Nat.max 0 + 1

/-- `save_checkpoint` as it acts on the caller's dict object `r`:
`state = dict(state)` allocates a fresh copy, the timestamp assignment
mutates only the copy.  Returns the new heap and the dict that
`json.dumps` serializes. -/
def save_checkpoint_heap (now : Int) (h : Heap) (r : Nat) : Heap × StateD :=
  let orig := (heapGet h r).getD []
  let copy := dictInsert orig "updated_at_unix" (.num now)
  ((freshAddr h, copy) :: h, copy)

/-! ## Fetcher (`extract_filing_html_directly`, `clean_filing_html`)

The HTTP transport is a parameter `fetch : url → Except exc (code, body)`
(an `error` is a transport exception raised by `requests.get`); the HTML
parsing library is the parameter `parseIndex`, the black-box outcome of
`BeautifulSoup` + `find` on the index page: `none` = no `tableFile`
table, `some none` = table but no matching `.htm/.html` link,
`some (some href)` = href of the first matching link. -/

/-! Python string operations used by the scripts, as character-list
translations (`str.strip`, `str.upper`, `str.lower`, `str.replace(" ", "")`,
`str.endswith`, `str.lstrip(c)`, `str.split(c)`). -/

def pyStrip (s : String) : String :=
  ⟨((s.toList.dropWhile Char.isWhitespace).reverse.dropWhile Char.isWhitespace).reverse⟩

def pyUpper (s : String) : String := ⟨s.toList.map Char.toUpper⟩

def pyLower (s : String) : String := ⟨s.toList.map Char.toLower⟩

/-- `s.replace(" ", "")`: delete every space. -/
def pyRemoveSpaces (s : String) : String := ⟨s.toList.filter (fun ch => ch != ' ')⟩

def pyEndsWith (s suffix : String) : Bool := suffix.toList.isSuffixOf s.toList

/-- `s.lstrip(c)`. -/
def lstripChar (c : Char) (s : String) : String := ⟨s.toList.dropWhile (fun x => x == c)⟩

/-- `str.split(c)`: split on every occurrence, keeping empty pieces. -/
def splitChar (c : Char) : List Char → List (List Char)
  | [] => [[]]
  | ch :: rest =>
    let r := splitChar c rest
    if ch = c then [] :: r
    else (ch :: r.headD []) :: r.tail

def pySplit (c : Char) (s : String) : List String :=
  (splitChar c s.toList).map (fun l => ⟨l⟩)

/-- One candidate row: the `Filename` and `Form Type` columns, as the
strings `str(row.get(...))` yields. -/
structure Row where
  filename : String
  formType : String
  deriving Repr, DecidableEq

abbrev HttpFetch := String → Except String (Nat × String)

/-- `str(row.get("Filename", "")).strip().replace(" ", "")`. -/
def sanitizeFilename (s : String) : String := pyRemoveSpaces (pyStrip s)

/-- `filename.lower().endswith((".txt", ".htm", ".html"))`. -/
def hasDocExt (s : String) : Bool :=
  pyEndsWith (pyLower s) ".txt" || pyEndsWith (pyLower s) ".htm" ||
    pyEndsWith (pyLower s) ".html"

/-- The body of the `try` in `extract_filing_html_directly`: any
exception escaping it (i.e. a transport exception from `fetch`)
propagates as `Except.error`. -/
def extractBody (fetch : HttpFetch) (parseIndex : String → Option (Option String))
    (row : Row) : Except String (Option String × Option String × String) := do
  let filename := sanitizeFilename row.filename
  if filename = "" then
    return (none, none, "❌ Missing or invalid Filename")
  else if hasDocExt filename then
    -- CASE 1: Filename already points directly to a document
    let filing_url := "https://www.sec.gov/Archives/" ++ lstripChar '/' filename
    let resp ← fetch filing_url
    if resp.1 ≠ 200 then
      return (some filing_url, none, "❌ Filing fetch failed: " ++ toString resp.1)
    else
      return (some filing_url, some resp.2, "✅ Success (direct)")
  else
    -- CASE 2: modern format, derive the index URL from the accession folder
    let parts := pySplit '/' filename
    if parts.length < 4 then
      return (none, none, "⚠️ Invalid path: " ++ filename)
    else
      let cik := parts.getD 2 ""
      let accession_nodash := parts.getD 3 ""
      let index_url :=
        "https://www.sec.gov/Archives/edgar/data/" ++ cik ++ "/" ++ accession_nodash ++ "/index.html"
      let resp ← fetch index_url
      if resp.1 ≠ 200 then
        return (some index_url, none, "❌ Index fetch failed: " ++ toString resp.1)
      else
        match parseIndex resp.2 with
        | none => return (some index_url, none, "⚠️ No document table found")
        | some none => return (some index_url, none, "⚠️ No primary .htm/.html link found")
        | some (some href) =>
          let filing_url := "https://www.sec.gov/" ++ lstripChar '/' href
          let fresp ← fetch filing_url
          if fresp.1 ≠ 200 then
            return (some filing_url, none, "❌ Filing fetch failed: " ++ toString fresp.1)
          else
            return (some filing_url, some fresp.2, "✅ Success (index)")

/-- `extract_filing_html_directly`: the whole body runs inside
`try ... except Exception as e`, so every exception becomes a returned
failure triple. -/
def extract_filing_html_directly (fetch : HttpFetch)
    (parseIndex : String → Option (Option String)) (row : Row) :
    Option String × Option String × String :=
  match extractBody fetch parseIndex row with
  | .ok r => r
  | .error e => (none, none, "⚠️ Exception: " ++ e)

/-- `extract_filing_html_directly` at the exception level: the
`try`/`except` wrapper never lets an error escape. -/
def extract_run (fetch : HttpFetch) (parseIndex : String → Option (Option String))
    (row : Row) : Except String (Option String × Option String × String) :=
  match extractBody fetch parseIndex row with
  | .ok r => .ok r
  | .error e => .ok (none, none, "⚠️ Exception: " ++ e)

/-- Python `str.splitlines` restricted to newline-separated text. -/
def splitLines (s : String) : List String := pySplit '\n' s

/-- The body of the `try` in `clean_filing_html`: `getText` is the
black-box `BeautifulSoup` part (decompose non-content tags, take the
body text with newline separators); the line post-processing
(`strip`, drop blanks, join) is concrete. -/
def cleanBody (getText : String → Except String String) (html : String) :
    Except String String := do
  let raw ← getText html
  let lines := ((splitLines raw).map pyStrip).filter (fun l => l != "")
  return String.intercalate "\n" lines

/-- `clean_filing_html`: failures degrade to a descriptive string. -/
def clean_filing_html (getText : String → Except String String) (html : String) : String :=
  match cleanBody getText html with
  | .ok t => t
  | .error e => "⚠️ Cleaning failed: " ++ e

/-- `clean_filing_html` at the exception level: never raises. -/
def clean_run (getText : String → Except String String) (html : String) :
    Except String String :=
  match cleanBody getText html with
  | .ok t => .ok t
  | .error e => .ok ("⚠️ Cleaning failed: " ++ e)

/-! ## The retry loop (main, lines 393–398)

`for attempt in range(retry_limit): fetch; if html: break; else sleep(2)`.
After the loop the variables hold the last attempt's values (or the
initial `None`s when `retry_limit == 0`).  `calls` counts invocations of
`extract_filing_html_directly`, `sleeps` the `time.sleep(2)` calls. -/

structure RetryOut where
  url : Option String
  html : Option String
  status : Option String
  calls : Nat
  sleeps : Nat
  deriving Repr, DecidableEq

def retryGo (attempt : Nat → Option String × Option String × String) :
    Nat → Nat → RetryOut
  | 0, _ => ⟨none, none, none, 0, 0⟩
  | 1, k =>
    let (u, h, s) := attempt k
    if h.isSome then ⟨u, h, some s, 1, 0⟩ else ⟨u, h, some s, 1, 1⟩
  | fuel + 2, k =>
    let (u, h, s) := attempt k
    if h.isSome then ⟨u, h, some s, 1, 0⟩
    else
      let r := retryGo attempt (fuel + 1) (k + 1)
      ⟨r.url, r.html, r.status, r.calls + 1, r.sleeps + 1⟩

/-- The retry loop with budget `retry_limit`. -/
def retryLoop (attempt : Nat → Option String × Option String × String)
    (retry_limit : Nat) : RetryOut :=
  retryGo attempt retry_limit 0

/-! ## The batch-fetch main loop (`main`, lines 350–455)

The run is embedded as a state machine over `RunState`.  The effectful
collaborators are parameters: `fetch row` is the (deterministic) outcome
of `extract_filing_html_directly` on a row, `clean` is
`clean_filing_html`.  Output parts are a list of `(part index, records)`
pairs; the checkpoint object is the `ckpt` field (saves are modelled as
succeeding, the best-effort failure case being covered separately by the
checkpoint-store theorems).  The run is modelled with the default
`--skip-if-exists` off.  `flushLog` is a ghost field recording, at each
flush, the parts written so far together with the checkpoint
`flush_part` persists right after writing — the states at which an
interruption-after-flush can happen. -/

structure Args where
  retryLimit : Nat
  checkpointEvery : Nat
  checkpointSaveEvery : Nat
  maxRowgroups : Nat
  maxFilings : Nat
  deriving Repr, DecidableEq

/-- The checkpoint record `persist_ckpt` writes. -/
structure Ckpt where
  rowgroup : Nat
  row_in_rowgroup : Nat
  out_part : Nat
  ok_in_part : Nat
  total_seen : Nat
  total_ok : Nat
  deriving Repr, DecidableEq

/-- A Fetch Result as buffered by the loop: the success dict
(`status="✅ Success"`, `filing_url`, `filing_text`, `cleaned_text`, row
columns) or the failure dict (`status`, `filing_url`,
`filing_text=None`, `cleaned_text=None`, row columns). -/
inductive Rec where
  | success (url : Option String) (text : String) (cleaned : String) (row : Row)
  | failure (status : Option String) (url : Option String) (row : Row)
  deriving Repr, DecidableEq

def Rec.isSuccess : Rec → Bool
  | .success _ _ _ _ => true
  | .failure _ _ _ => false

/-- Number of successful Fetch Results in a record list. -/
def sCount (recs : List Rec) : Nat := (recs.filter Rec.isSuccess).length

structure RunState where
  outPart : Nat
  okInPart : Nat
  totalSeen : Nat
  totalOk : Nat
  processedSinceCkpt : Nat
  buffer : List Rec
  parts : List (Nat × List Rec)
  ckpt : Option Ckpt
  curRg : Nat
  curRow : Nat
  flushLog : List (List (Nat × List Rec) × Ckpt)
  deriving Repr, DecidableEq

/-- `persist_ckpt(rowgroup, row_in_rowgroup)`: overwrite the checkpoint
object with the current counters and the given position. -/
def persistCkpt (st : RunState) (rg i : Nat) : RunState :=
  { st with ckpt := some ⟨rg, i, st.outPart, st.okInPart, st.totalSeen, st.totalOk⟩ }

/-- `flush_part()`: no-op on an empty buffer; otherwise write the buffer
as part `out_part`, clear it, bump `out_part`, reset `ok_in_part`, and
persist the checkpoint at `(current_rowgroup, current_row_index)`. -/
def flushPart (st : RunState) : RunState :=
  if st.buffer.isEmpty then st
  else
    let parts2 := st.parts ++ [(st.outPart, st.buffer)]
    let saved : Ckpt := ⟨st.curRg, st.curRow, st.outPart + 1, 0, st.totalSeen, st.totalOk⟩
    { st with parts := parts2, buffer := [], outPart := st.outPart + 1, okInPart := 0,
              ckpt := some saved, flushLog := st.flushLog ++ [(parts2, saved)] }

/-- The body of `for i in range(begin_i, len(df))` for one row.  The
returned flag is `true` when the `--max-filings` early `return` fires
(it flushes, persists at `(rg, i)` and leaves `main`). -/
def processRow (fetch : Row → Option String × Option String × String)
    (clean : String → String) (a : Args) (rg i : Nat) (row : Row)
    (st : RunState) : RunState × Bool :=
  let st := { st with curRow := i, totalSeen := st.totalSeen + 1,
                      processedSinceCkpt := st.processedSinceCkpt + 1 }
  if a.maxFilings ≠ 0 ∧ st.totalSeen > a.maxFilings then
    (persistCkpt (flushPart st) rg i, true)
  else
    let r := retryLoop (fun _ => fetch row) a.retryLimit
    match r.html with
    | none =>
      let st := { st with buffer := st.buffer ++ [Rec.failure r.status r.url row] }
      let st := if st.processedSinceCkpt ≥ a.checkpointSaveEvery then
                  { persistCkpt st rg (i + 1) with processedSinceCkpt := 0 }
                else st
      (st, false)
    | some html =>
      let cleaned := clean html
      let st := { st with totalOk := st.totalOk + 1, okInPart := st.okInPart + 1,
                          buffer := st.buffer ++ [Rec.success r.url html cleaned row] }
      let st := if st.okInPart ≥ a.checkpointEvery then flushPart st else st
      let st := if st.processedSinceCkpt ≥ a.checkpointSaveEvery then
                  { persistCkpt st rg (i + 1) with processedSinceCkpt := 0 }
                else st
      (st, false)

/-- The row loop from index `i` over the remaining candidate rows. -/
def runRows (fetch : Row → Option String × Option String × String)
    (clean : String → String) (a : Args) (rg : Nat) :
    List Row → Nat → RunState → RunState × Bool
  | [], _, st => (st, false)
  | row :: rest, i, st =>
    match processRow fetch clean a rg i row st with
    | (st2, true) => (st2, true)
    | (st2, false) => runRows fetch clean a rg rest (i + 1) st2

/-- The `Form Type` filter: strip, upper-case, keep `TENK_FORMS`. -/
def filterRG (rows : List Row) : List Row :=
  rows.filter (fun r =>
    pyUpper (pyStrip r.formType) == "10-K" || pyUpper (pyStrip r.formType) == "10-K/A")

/-- The rowgroup loop from rowgroup index `rg`.  The returned flag is
`true` only for the `--max-filings` early `return`; the
`--max-rowgroups` `break` and normal exhaustion return `false` so the
final flush still runs. -/
def runRGsAux (fetch : Row → Option String × Option String × String)
    (clean : String → String) (a : Args) (startRg startI : Nat) :
    List (List Row) → Nat → RunState → RunState × Bool
  | [], _, st => (st, false)
  | g :: rest, rg, st =>
    if a.maxRowgroups ≠ 0 ∧ rg ≥ a.maxRowgroups then (st, false)
    else
      let st1 : RunState := { st with curRg := rg }
      let gf := filterRG g
      if gf.isEmpty then
        runRGsAux fetch clean a startRg startI rest (rg + 1) st1
      else
        let begin_i := if rg = startRg then startI else 0
        match runRows fetch clean a rg (gf.drop begin_i) begin_i st1 with
        | (st2, true) => (st2, true)
        | (st2, false) =>
          runRGsAux fetch clean a startRg startI rest (rg + 1) (persistCkpt st2 (rg + 1) 0)

/-- Initial run state: counters come from the loaded checkpoint
(`ckpt.get(field, 0)`), buffer empty, no parts written yet by this run. -/
def initState (ckpt0 : Option Ckpt) : RunState :=
  { outPart := (ckpt0.map Ckpt.out_part).getD 0,
    okInPart := (ckpt0.map Ckpt.ok_in_part).getD 0,
    totalSeen := (ckpt0.map Ckpt.total_seen).getD 0,
    totalOk := (ckpt0.map Ckpt.total_ok).getD 0,
    processedSinceCkpt := 0, buffer := [], parts := [], ckpt := ckpt0,
    curRg := (ckpt0.map Ckpt.rowgroup).getD 0,
    curRow := (ckpt0.map Ckpt.row_in_rowgroup).getD 0,
    flushLog := [] }

/-- One run of `main` over the input rowgroups, starting from an
optional loaded checkpoint.  On normal exhaustion (or `--max-rowgroups`
break) the final `flush_part()` and `persist_ckpt(num_row_groups, 0)`
run; the `--max-filings` early `return` skips them. -/
def mainRun (fetch : Row → Option String × Option String × String)
    (clean : String → String) (a : Args) (rgs : List (List Row))
    (ckpt0 : Option Ckpt) : RunState :=
  let startRg := (ckpt0.map Ckpt.rowgroup).getD 0
  let startI := (ckpt0.map Ckpt.row_in_rowgroup).getD 0
  match runRGsAux fetch clean a startRg startI (rgs.drop startRg) startRg (initState ckpt0) with
  | (st, true) => st
  | (st, false) => persistCkpt (flushPart st) rgs.length 0

/-- All Fetch Results across a list of written parts, in order. -/
def partRecs (ps : List (Nat × List Rec)) : List Rec :=
  (ps.map (fun p => p.2)).flatten

/-! ## Quarter partition merge job (`partition_2_quarters.py`)

Only the manifest bookkeeping of `main` matters to the claims: the
manifest is a JSONL file of `{input_file, processed_at}` records
(`none` = object absent), `read_manifest` collects the `input_file`
values (reading failure gives the empty set), `append_manifest` rereads
the existing lines, appends the new records, and atomically replaces the
object. -/

structure MRec where
  input_file : String
  processed_at : String
  deriving Repr, DecidableEq

/-- `read_manifest`: the set of processed input-file URIs; an absent or
unreadable manifest yields the empty set. -/
def read_manifest (manifest : Option (List MRec)) : List String :=
  match manifest with
  | none => []
  | some recs => recs.map (fun r => r.input_file)

/-- `append_manifest`: existing lines (empty when absent/unreadable)
plus the new records, written back atomically. -/
def append_manifest (manifest : Option (List MRec)) (records : List MRec) :
    Option (List MRec) :=
  some ((manifest.getD []) ++ records)

/-- `new_files[i:i+n]` batching of `range(0, len(new_files), n)`. -/
def chunkGo (n : Nat) : Nat → List String → List (List String)
  | 0, _ => []
  | _, [] => []
  | fuel + 1, xs => xs.take n :: chunkGo n fuel (xs.drop n)

def chunkList (n : Nat) (xs : List String) : List (List String) :=
  chunkGo n xs.length xs

/-- One pass of the `while True` loop of the merge job's `main` (with
`--sleep-seconds 0` the loop runs exactly once when new files exist).
Returns the input files handed to `process_batch` (in order) and the
manifest after the per-batch `append_manifest` calls.  The quarter-file
writes are side effects that do not feed back into the manifest. -/
def runPass (batchFiles : Nat) (manifest : Option (List MRec))
    (allFiles : List String) (now : String) : List String × Option (List MRec) :=
  let processed := read_manifest manifest
  let new_files := allFiles.filter (fun f => !(processed.contains f))
  let batches := chunkList batchFiles new_files
  (batches.flatten,
   batches.foldl (fun m batch =>
     append_manifest m (batch.map (fun uri => ⟨uri, now⟩))) manifest)

/-! ## Concrete scenario for the interrupted-resume equivalence claim

A deterministic always-succeeding fetch stub over one rowgroup of two
10-K rows, flush threshold 1.  The uninterrupted run writes parts
`[rec0]`, `[rec1]`.  Interrupting right after the first flush and
resuming from the checkpoint that flush persisted re-processes row 0,
because `flush_part` saves `row_in_rowgroup = current_row_index` — the
index of the row already flushed — instead of the next row. -/

def exRow0 : Row := ⟨"edgar/data/1/a.txt", "10-K"⟩

def exRow1 : Row := ⟨"edgar/data/1/b.txt", "10-K"⟩

def exFetch (r : Row) : Option String × Option String × String :=
  (some r.filename, some ("HTML " ++ r.filename), "✅ Success (direct)")

def exArgs : Args :=
  { retryLimit := 1, checkpointEvery := 1, checkpointSaveEvery := 50,
    maxRowgroups := 0, maxFilings := 0 }

/-- The uninterrupted run. -/
def exRun : RunState := mainRun exFetch id exArgs [[exRow0, exRow1]] none

/-- The snapshot at the first flush: parts written so far and the
checkpoint persisted by that flush. -/
def exFlush0 : List (Nat × List Rec) × Ckpt :=
  exRun.flushLog.getD 0 ([], ⟨0, 0, 0, 0, 0, 0⟩)

/-- The resumed run, started from the checkpoint the first flush saved. -/
def exResume : RunState := mainRun exFetch id exArgs [[exRow0, exRow1]] (some exFlush0.2)

/-- Fetch Results across both runs' written parts: the parts on disk at
the interruption point plus everything the resumed run writes. -/
def exCombined : List Rec := partRecs exFlush0.1 ++ partRecs exResume.parts

/-- Fetch Results across the uninterrupted run's parts. -/
def exUninterrupted : List Rec := partRecs exRun.parts

/-- Row 0's success record, as both runs produce it. -/
def exRec0 : Rec :=
  Rec.success (some "edgar/data/1/a.txt") ("HTML edgar/data/1/a.txt")
    ("HTML edgar/data/1/a.txt") exRow0

/-- The counter fields of the checkpoint state dict. -/
def counterKeys : List String :=
  ["rowgroup", "row_in_rowgroup", "out_part", "ok_in_part", "total_seen", "total_ok"]

/-! ## Concrete scenario for the direct-layout example claim -/

def c7row : Row := ⟨"edgar/data/320193/0000320193-20-000096.txt", "10-K"⟩

/-- A fetch stub answering HTTP 200 on exactly the expected archive URL,
so success also certifies which URL the fetcher requested. -/
def c7fetch : HttpFetch := fun u =>
  if u = "https://www.sec.gov/Archives/edgar/data/320193/0000320193-20-000096.txt" then
    .ok (200, "BODY")
  else
    .error "unexpected URL"

/-! ## Invariant for the flush-threshold claim -/

/-- Every written part holds at most `every` successful Fetch Results. -/
def partsOk (every : Nat) (ps : List (Nat × List Rec)) : Prop :=
  ∀ p ∈ ps, sCount p.2 ≤ every

/-- Loop-head invariant of the fetch loop: the buffer's success count is
covered by `ok_in_part` and strictly below the flush threshold, and all
parts written so far respect the threshold. -/
structure Inv (every : Nat) (st : RunState) : Prop where
  buf_le : sCount st.buffer ≤ st.okInPart
  buf_lt : sCount st.buffer < every
  pok : partsOk every st.parts

/-! ## Lemmas: association lists -/

theorem alistGet_upd_self {κ β : Type} [DecidableEq κ] (l : List (κ × β)) (k : κ) (v : β) :
    alistGet (alistUpd l k v) k = some v := by
  unfold alistUpd
  split
  · next h =>
    induction l with
    | nil => simp at h
    | cons kv rest ih =>
      by_cases hk : kv.1 = k
      · simp only [List.map_cons, if_pos hk, alistGet]
        rw [List.find?_cons_of_pos _ (by simp)]
        simp
      · have h2 : rest.any (fun kv => decide (kv.1 = k)) = true := by
          simp only [List.any_cons, Bool.or_eq_true] at h
          rcases h with h | h
          · exact absurd (by simpa using h) hk
          · exact h
        simp only [List.map_cons, if_neg hk, alistGet]
        rw [List.find?_cons_of_neg _ (by simp [hk])]
        simpa [alistGet] using ih h2
  · next h =>
    have h1 : List.find? (fun kv => decide (kv.1 = k)) l = none := by
      rw [List.find?_eq_none]
      intro x hx
      simp only [List.any_eq_true] at h
      exact fun hp => h ⟨x, hx, hp⟩
    simp [alistGet, List.find?_append, h1]

theorem alistGet_map_ne {κ β : Type} [DecidableEq κ] (l : List (κ × β)) (k k2 : κ)
    (v : β) (hne : k2 ≠ k) :
    alistGet (l.map (fun kv => if kv.1 = k2 then (k2, v) else kv)) k = alistGet l k := by
  induction l with
  | nil => rfl
  | cons kv rest ih =>
    by_cases hk : kv.1 = k2
    · simp only [List.map_cons, if_pos hk, alistGet]
      rw [List.find?_cons_of_neg _ (by simp [hne]),
          List.find?_cons_of_neg _ (by simp [hk, hne])]
      simpa [alistGet] using ih
    · simp only [List.map_cons, if_neg hk, alistGet]
      by_cases hmatch : kv.1 = k
      · rw [List.find?_cons_of_pos _ (by simp [hmatch]),
            List.find?_cons_of_pos _ (by simp [hmatch])]
      · rw [List.find?_cons_of_neg _ (by simp [hmatch]),
            List.find?_cons_of_neg _ (by simp [hmatch])]
        simpa [alistGet] using ih

theorem alistGet_upd_ne {κ β : Type} [DecidableEq κ] (l : List (κ × β)) (k k2 : κ)
    (v : β) (hne : k2 ≠ k) : alistGet (alistUpd l k2 v) k = alistGet l k := by
  unfold alistUpd
  split
  · exact alistGet_map_ne l k k2 v hne
  · have h1 : List.find? (fun kv => decide (kv.1 = k)) [(k2, v)] = none := by
      simp [hne]
    simp [alistGet, List.find?_append, h1]

theorem alistGet_some_mem_keys {κ β : Type} [DecidableEq κ] (l : List (κ × β))
    (k : κ) (v : β) (h : alistGet l k = some v) : k ∈ l.map (fun kv => kv.1) := by
  induction l with
  | nil => simp [alistGet] at h
  | cons kv rest ih =>
    by_cases hk : kv.1 = k
    · simp [hk]
    · simp only [alistGet] at h
      rw [List.find?_cons_of_neg _ (by simp [hk])] at h
      simp only [List.map_cons, List.mem_cons]
      exact Or.inr (ih (by simpa [alistGet] using h))

theorem le_foldr_max (l : List Nat) (r : Nat) (h : r ∈ l) : r ≤ l.foldr Nat.max 0 := by
  induction l with
  | nil => simp at h
  | cons a rest ih =>
    simp only [List.foldr_cons]
    rcases List.mem_cons.mp h with h | h
    · subst h
      exact Nat.le_max_left _ _
    · exact le_trans (ih h) (Nat.le_max_right _ _)

/-! ## Lemmas: serialization -/

theorem all_serializable_dictInsert (d : StateD) (k : String) (n : Int)
    (h : d.all (fun kv => serializable kv.2) = true) :
    (dictInsert d k (.num n)).all (fun kv => serializable kv.2) = true := by
  rw [List.all_eq_true] at h ⊢
  intro kv hkv
  unfold dictInsert alistUpd at hkv
  split at hkv
  · rcases List.mem_map.mp hkv with ⟨orig, horig, heq⟩
    by_cases hk : orig.1 = k
    · rw [if_pos hk] at heq
      subst heq
      rfl
    · rw [if_neg hk] at heq
      subst heq
      exact h orig horig
  · rcases List.mem_append.mp hkv with hmem | hmem
    · exact h kv hmem
    · have : kv = (k, PyVal.num n) := by simpa using hmem
      subst this
      rfl

/-! ## Lemmas: retry loop -/

theorem retryGo_calls_le (attempt : Nat → Option String × Option String × String) :
    ∀ (fuel k : Nat), (retryGo attempt fuel k).calls ≤ fuel
  | 0, _ => by simp [retryGo]
  | 1, k => by
    simp only [retryGo]
    rcases attempt k with ⟨u, h, s⟩
    rcases h with _ | x <;> simp
  | fuel + 2, k => by
    have ih := retryGo_calls_le attempt (fuel + 1) (k + 1)
    simp only [retryGo]
    rcases attempt k with ⟨u, h, s⟩
    rcases h with _ | x
    · simp only [Option.isSome_none, Bool.false_eq_true, if_false]
      omega
    · simp

theorem retryGo_fail (attempt : Nat → Option String × Option String × String)
    (hfail : ∀ k, (attempt k).2.1 = none) :
    ∀ (fuel k : Nat), (retryGo attempt fuel k).calls = fuel ∧
      (retryGo attempt fuel k).sleeps = fuel ∧ (retryGo attempt fuel k).html = none
  | 0, _ => by simp [retryGo]
  | 1, k => by
    have hk := hfail k
    simp only [retryGo]
    rcases hA : attempt k with ⟨u, h, s⟩
    rw [hA] at hk
    simp only at hk
    subst hk
    simp
  | fuel + 2, k => by
    have ih := retryGo_fail attempt hfail (fuel + 1) (k + 1)
    have hk := hfail k
    simp only [retryGo]
    rcases hA : attempt k with ⟨u, h, s⟩
    rw [hA] at hk
    simp only at hk
    subst hk
    simp only [Option.isSome_none, Bool.false_eq_true, if_false]
    refine ⟨?_, ?_, ?_⟩
    · simp [ih.1]
    · simp [ih.2.1]
    · exact ih.2.2

/-! ## Lemmas: success counting -/

theorem sCount_nil : sCount [] = 0 := rfl

theorem sCount_append (a b : List Rec) : sCount (a ++ b) = sCount a + sCount b := by
  simp [sCount, List.filter_append]

theorem sCount_fail (status url : Option String) (row : Row) :
    sCount [Rec.failure status url row] = 0 := rfl

theorem sCount_success (url : Option String) (t c : String) (row : Row) :
    sCount [Rec.success url t c row] = 1 := rfl

/-! ## Lemmas: the flush-threshold invariant -/

theorem inv_persistCkpt (every : Nat) (st : RunState) (rg i : Nat)
    (h : Inv every st) : Inv every (persistCkpt st rg i) :=
  ⟨h.buf_le, h.buf_lt, h.pok⟩

theorem inv_flushPart (every : Nat) (st : RunState) (he : 1 ≤ every)
    (hb : sCount st.buffer ≤ every) (hok : partsOk every st.parts) :
    Inv every (flushPart st) := by
  unfold flushPart
  split
  · next hbuf =>
    have hnil : st.buffer = [] := by simpa using hbuf
    refine ⟨by simp [hnil, sCount_nil], ?_, hok⟩
    rw [hnil, sCount_nil]
    omega
  · next hbuf =>
    refine ⟨by simp [sCount_nil], by rw [sCount_nil] at *; omega, ?_⟩
    intro p hp
    rcases List.mem_append.mp hp with hmem | hmem
    · exact hok p hmem
    · have hpe : p = (st.outPart, st.buffer) := by simpa using hmem
      subst hpe
      simpa using hb

theorem inv_of_fields (every : Nat) (st st2 : RunState) (h : Inv every st)
    (hb : st2.buffer = st.buffer) (ho : st2.okInPart = st.okInPart)
    (hp : st2.parts = st.parts) : Inv every st2 := by
  refine ⟨?_, ?_, ?_⟩
  · rw [hb, ho]
    exact h.buf_le
  · rw [hb]
    exact h.buf_lt
  · rw [hp]
    exact h.pok

theorem inv_pscReset (every : Nat) (st : RunState) (rg i : Nat) (h : Inv every st) :
    Inv every { persistCkpt st rg i with processedSinceCkpt := 0 } :=
  inv_of_fields every st _ h rfl rfl rfl

theorem inv_processRow (fetch : Row → Option String × Option String × String)
    (clean : String → String) (a : Args) (rg i : Nat) (row : Row) (st : RunState)
    (he : 1 ≤ a.checkpointEvery) (h : Inv a.checkpointEvery st) :
    Inv a.checkpointEvery (processRow fetch clean a rg i row st).1 := by
  simp only [processRow]
  split
  · -- --max-filings early return: flush (buffer unchanged) then persist
    exact inv_persistCkpt _ _ _ _
      (inv_flushPart _ _ he (le_of_lt h.buf_lt) h.pok)
  · split
    · -- failure record appended: success count unchanged
      split
      · exact ⟨by simpa [persistCkpt, sCount_append, sCount_fail] using h.buf_le,
               by simpa [persistCkpt, sCount_append, sCount_fail] using h.buf_lt, h.pok⟩
      · exact ⟨by simpa [sCount_append, sCount_fail] using h.buf_le,
               by simpa [sCount_append, sCount_fail] using h.buf_lt, h.pok⟩
    · -- success record appended
      split
      · -- threshold reached: flush
        have hb3 : ∀ (u : Option String) (t c : String),
            sCount (st.buffer ++ [Rec.success u t c row]) ≤ a.checkpointEvery := by
          intro u t c
          have := h.buf_lt
          simp only [sCount_append, sCount_success]
          omega
        split
        · exact inv_pscReset _ _ _ _ (inv_flushPart _ _ he (hb3 _ _ _) h.pok)
        · exact inv_flushPart _ _ he (hb3 _ _ _) h.pok
      · -- below threshold
        next hlt =>
        have key : ∀ (u : Option String) (t c : String),
            sCount (st.buffer ++ [Rec.success u t c row]) ≤ st.okInPart + 1 ∧
            sCount (st.buffer ++ [Rec.success u t c row]) < a.checkpointEvery := by
          intro u t c
          have h1 := h.buf_le
          have h2 : ¬ st.okInPart + 1 ≥ a.checkpointEvery := by simpa using hlt
          simp only [sCount_append, sCount_success]
          omega
        split
        · exact ⟨(key _ _ _).1, (key _ _ _).2, h.pok⟩
        · exact ⟨(key _ _ _).1, (key _ _ _).2, h.pok⟩

theorem inv_runRows (fetch : Row → Option String × Option String × String)
    (clean : String → String) (a : Args) (rg : Nat) (he : 1 ≤ a.checkpointEvery) :
    ∀ (rows : List Row) (i : Nat) (st : RunState), Inv a.checkpointEvery st →
      Inv a.checkpointEvery (runRows fetch clean a rg rows i st).1
  | [], _, _, h => h
  | row :: rest, i, st, h => by
    simp only [runRows]
    rcases hP : processRow fetch clean a rg i row st with ⟨st2, flag⟩
    have h2 : Inv a.checkpointEvery st2 := by
      have hx := inv_processRow fetch clean a rg i row st he h
      rwa [hP] at hx
    cases flag
    · simpa using inv_runRows fetch clean a rg he rest (i + 1) st2 h2
    · simpa using h2

theorem inv_runRGsAux (fetch : Row → Option String × Option String × String)
    (clean : String → String) (a : Args) (startRg startI : Nat)
    (he : 1 ≤ a.checkpointEvery) :
    ∀ (gs : List (List Row)) (rg : Nat) (st : RunState), Inv a.checkpointEvery st →
      Inv a.checkpointEvery (runRGsAux fetch clean a startRg startI gs rg st).1
  | [], _, _, h => h
  | g :: rest, rg, st, h => by
    simp only [runRGsAux]
    split
    · exact h
    · have h1 : Inv a.checkpointEvery ({ st with curRg := rg }) :=
        inv_of_fields _ st _ h rfl rfl rfl
      split
      · exact inv_runRGsAux fetch clean a startRg startI he rest (rg + 1) _ h1
      · rcases hR : runRows fetch clean a rg
            ((filterRG g).drop (if rg = startRg then startI else 0))
            (if rg = startRg then startI else 0) { st with curRg := rg } with ⟨st2, flag⟩
        have h2 : Inv a.checkpointEvery st2 := by
          have hx := inv_runRows fetch clean a rg he
            ((filterRG g).drop (if rg = startRg then startI else 0))
            (if rg = startRg then startI else 0) { st with curRg := rg } h1
          rwa [hR] at hx
        cases flag
        · simpa using inv_runRGsAux fetch clean a startRg startI he rest (rg + 1) _
            (inv_persistCkpt _ _ (rg + 1) 0 h2)
        · simpa using h2

theorem inv_mainRun (fetch : Row → Option String × Option String × String)
    (clean : String → String) (a : Args) (rgs : List (List Row)) (ckpt0 : Option Ckpt)
    (he : 1 ≤ a.checkpointEvery) :
    partsOk a.checkpointEvery (mainRun fetch clean a rgs ckpt0).parts := by
  have h0 : Inv a.checkpointEvery (initState ckpt0) := by
    refine ⟨?_, ?_, ?_⟩
    · simp [initState, sCount_nil]
    · simp only [initState, sCount_nil]
      omega
    · intro p hp
      simp [initState] at hp
  simp only [mainRun]
  rcases hR : runRGsAux fetch clean a ((ckpt0.map Ckpt.rowgroup).getD 0)
      ((ckpt0.map Ckpt.row_in_rowgroup).getD 0)
      (rgs.drop ((ckpt0.map Ckpt.rowgroup).getD 0))
      ((ckpt0.map Ckpt.rowgroup).getD 0) (initState ckpt0) with ⟨st, flag⟩
  have h2 : Inv a.checkpointEvery st := by
    have hx := inv_runRGsAux fetch clean a ((ckpt0.map Ckpt.rowgroup).getD 0)
      ((ckpt0.map Ckpt.row_in_rowgroup).getD 0) he
      (rgs.drop ((ckpt0.map Ckpt.rowgroup).getD 0))
      ((ckpt0.map Ckpt.rowgroup).getD 0) (initState ckpt0) h0
    rwa [hR] at hx
  cases flag
  · simpa using
      (inv_persistCkpt _ _ rgs.length 0
        (inv_flushPart _ _ he (le_of_lt h2.buf_lt) h2.pok)).pok
  · simpa using h2.pok

/-! ## Claim theorems -/

/-- Claim C3: for every state dict (here: one whose values `json.dumps`
accepts, written to working storage), `save_checkpoint` followed
immediately by `load_checkpoint` at the same path returns a state equal
to the saved one in all six counter fields; only the extra
`updated_at_unix` timestamp field differs. -/
theorem c3_save_load_roundtrip (now : Int) (store : Store) (path : String)
    (state : StateD) (hser : state.all (fun kv => serializable kv.2) = true) :
    ∃ store2 state2,
      save_checkpoint_run now true store path state = .ok (store2, []) ∧
      load_checkpoint store2 path = some state2 ∧
      ∀ k ∈ counterKeys, dictGet state2 k = dictGet state k := by
  have hall := all_serializable_dictInsert state "updated_at_unix" now hser
  have hdumps : dumps (dictInsert state "updated_at_unix" (PyVal.num now))
      = .ok (dictInsert state "updated_at_unix" (PyVal.num now)) := by
    simp [dumps, hall]
  refine ⟨storeInsert store path
      (.good (dictInsert state "updated_at_unix" (.num now))),
    dictInsert state "updated_at_unix" (.num now), ?_, ?_, ?_⟩
  · simp only [save_checkpoint_run]
    rw [hdumps]
    rfl
  · have hl : storeLookup (storeInsert store path
        (.good (dictInsert state "updated_at_unix" (.num now)))) path
        = some (.good (dictInsert state "updated_at_unix" (.num now))) :=
      alistGet_upd_self store path _
    simp [load_checkpoint, checkpoint_exists, hl]
  · intro k hk
    fin_cases hk <;> exact alistGet_upd_ne state _ _ _ (by decide)

/-- Claim C3 witness at a concrete state, path and store. -/
theorem c3_save_load_roundtrip_witness :
    ∃ store2 state2,
      save_checkpoint_run 7 true [] "gs://b/ckpt.json" [("rowgroup", PyVal.num 5)]
        = .ok (store2, []) ∧
      load_checkpoint store2 "gs://b/ckpt.json" = some state2 ∧
      ∀ k ∈ counterKeys, dictGet state2 k = dictGet [("rowgroup", PyVal.num 5)] k :=
  c3_save_load_roundtrip 7 [] "gs://b/ckpt.json" [("rowgroup", PyVal.num 5)] (by decide)

/-- Claim C4: `load_checkpoint` never raises — the exception-level run
always returns `ok` of the pure result — and it returns the sentinel
`None` both when no object exists at the path and when the stored bytes
fail to deserialize. -/
theorem c4_load_checkpoint_never_raises (store : Store) (path : String) :
    load_checkpoint_run store path = .ok (load_checkpoint store path) ∧
    (storeLookup store path = none → load_checkpoint store path = none) ∧
    (storeLookup store path = some .bad → load_checkpoint store path = none) := by
  refine ⟨?_, ?_, ?_⟩
  · unfold load_checkpoint_run load_checkpoint
    by_cases hex : checkpoint_exists store path
    · rw [if_pos hex, if_pos hex]
      cases storeLookup store path with
      | none => rfl
      | some b => cases b <;> rfl
    · rw [if_neg hex, if_neg hex]
  · intro hnone
    simp [load_checkpoint, checkpoint_exists, hnone]
  · intro hbad
    simp [load_checkpoint, checkpoint_exists, hbad]

/-- Claim C4 witness: an absent path and a corrupt blob both load as `None`. -/
theorem c4_load_checkpoint_never_raises_witness :
    load_checkpoint [] "missing.json" = none ∧
    load_checkpoint [("c.json", Blob.bad)] "c.json" = none :=
  ⟨(c4_load_checkpoint_never_raises [] "missing.json").2.1 rfl,
   (c4_load_checkpoint_never_raises [("c.json", Blob.bad)] "c.json").2.2 rfl⟩

/-- Claim C5 counterexample: `json.dumps` runs before the `try` block in
`save_checkpoint`, so a state dict holding a non-serializable value
makes the call raise `TypeError` instead of logging and returning — the
claim that any serialization failure is caught is false. -/
theorem c5_serialization_failure_propagates :
    save_checkpoint_run 0 true [] "ckpt.json" [("bad", PyVal.unser "set")]
      = .error "TypeError: Object of type set is not JSON serializable" := rfl

/-- Claim C5 (amended): for every state whose values serialize,
`save_checkpoint` returns normally whatever happens to the storage
write; a write failure is caught and only logged.  (A serialization
failure, raised by `json.dumps` before the guarded block, propagates —
see the counterexample.) -/
theorem c5_write_failure_is_caught (now : Int) (writeOk : Bool) (store : Store)
    (path : String) (state : StateD)
    (hser : state.all (fun kv => serializable kv.2) = true) :
    (writeOk = false →
      save_checkpoint_run now writeOk store path state
        = .ok (store, ["[WARN] Failed to save checkpoint " ++ path])) ∧
    ∃ out, save_checkpoint_run now writeOk store path state = .ok out := by
  have hall := all_serializable_dictInsert state "updated_at_unix" now hser
  have hdumps : dumps (dictInsert state "updated_at_unix" (PyVal.num now))
      = .ok (dictInsert state "updated_at_unix" (PyVal.num now)) := by
    simp [dumps, hall]
  cases writeOk
  · have hrun : save_checkpoint_run now false store path state
        = .ok (store, ["[WARN] Failed to save checkpoint " ++ path]) := by
      simp only [save_checkpoint_run]
      rw [hdumps]
      rfl
    exact ⟨fun _ => hrun, ⟨_, hrun⟩⟩
  · have hrun : save_checkpoint_run now true store path state
        = .ok (storeInsert store path
            (.good (dictInsert state "updated_at_unix" (PyVal.num now))), []) := by
      simp only [save_checkpoint_run]
      rw [hdumps]
      rfl
    exact ⟨fun hcontra => by simp at hcontra, ⟨_, hrun⟩⟩

/-- Claim C5 (amended) witness: a failed write on a serializable state
returns normally with the warning logged. -/
theorem c5_write_failure_is_caught_witness :
    save_checkpoint_run 0 false [] "p" [("rowgroup", PyVal.num 1)]
      = .ok ([], ["[WARN] Failed to save checkpoint p"]) :=
  (c5_write_failure_is_caught 0 false [] "p" [("rowgroup", PyVal.num 1)] (by decide)).1 rfl

/-- Claim C10: `save_checkpoint` copies the dict before adding the
timestamp (`state = dict(state)`), so the caller's dict object is
unchanged by the call; the serialized payload is the copy with
`updated_at_unix` added. -/
theorem c10_caller_dict_unchanged (now : Int) (h : Heap) (r : Nat) (d : StateD)
    (hr : heapGet h r = some d) :
    heapGet (save_checkpoint_heap now h r).1 r = some d ∧
    (save_checkpoint_heap now h r).2 = dictInsert d "updated_at_unix" (.num now) := by
  have hmem : r ∈ heapAddrs h := by
    have := alistGet_some_mem_keys h r d hr
    simpa [heapAddrs] using this
  have hlt : r < freshAddr h := by
    have := le_foldr_max (heapAddrs h) r hmem
    unfold freshAddr
    omega
  have hne : ¬ (freshAddr h = r) := by omega
  constructor
  · show alistGet ((freshAddr h,
        dictInsert ((heapGet h r).getD []) "updated_at_unix" (.num now)) :: h) r = some d
    unfold alistGet
    rw [List.find?_cons_of_neg _ (by simp [hne])]
    simpa [heapGet, alistGet] using hr
  · simp [save_checkpoint_heap, hr]

/-- Claim C10 witness at a concrete heap. -/
theorem c10_caller_dict_unchanged_witness :
    heapGet (save_checkpoint_heap 9 [(0, [("x", PyVal.num 1)])] 0).1 0
      = some [("x", PyVal.num 1)] :=
  (c10_caller_dict_unchanged 9 [(0, [("x", PyVal.num 1)])] 0 [("x", PyVal.num 1)] rfl).1

/-- Claim C6: the per-row fetcher and the HTML cleaner never raise past
their own boundary: for every transport/parsing behaviour and every row,
the exception-level runs return `ok`; when the guarded body raises, the
fetcher returns content `None` with an exception status string, and the
cleaner returns a descriptive failure string. -/
theorem c6_fetcher_never_raises (fetch : HttpFetch)
    (parseIndex : String → Option (Option String)) (row : Row)
    (getText : String → Except String String) (html : String) :
    extract_run fetch parseIndex row
      = .ok (extract_filing_html_directly fetch parseIndex row) ∧
    clean_run getText html = .ok (clean_filing_html getText html) ∧
    (∀ e, extractBody fetch parseIndex row = .error e →
      extract_filing_html_directly fetch parseIndex row
        = (none, none, "⚠️ Exception: " ++ e)) ∧
    (∀ e, cleanBody getText html = .error e →
      clean_filing_html getText html = "⚠️ Cleaning failed: " ++ e) := by
  refine ⟨?_, ?_, ?_, ?_⟩
  · unfold extract_run extract_filing_html_directly
    cases extractBody fetch parseIndex row <;> rfl
  · unfold clean_run clean_filing_html
    cases cleanBody getText html <;> rfl
  · intro e he
    unfold extract_filing_html_directly
    rw [he]
  · intro e he
    unfold clean_filing_html
    rw [he]

/-- Claim C6 witness: a raising transport and a raising parser both
degrade to returned failure strings. -/
theorem c6_fetcher_never_raises_witness :
    extract_filing_html_directly (fun _ => .error "boom") (fun _ => none) exRow0
      = (none, none, "⚠️ Exception: boom") ∧
    clean_filing_html (fun _ => .error "parse crash") "<html>"
      = "⚠️ Cleaning failed: parse crash" :=
  ⟨(c6_fetcher_never_raises (fun _ => .error "boom") (fun _ => none) exRow0
      (fun _ => .error "parse crash") "<html>").2.2.1 "boom" rfl,
   (c6_fetcher_never_raises (fun _ => .error "boom") (fun _ => none) exRow0
      (fun _ => .error "parse crash") "<html>").2.2.2 "parse crash" rfl⟩

/-- Claim C7 counterexample: on the example row, the fetcher's returned
status string is `"✅ Success (direct)"`, which is not the claimed
string `"Success (direct)"` (the checkmark prefix is part of it). -/
theorem c7_status_not_bare_success :
    (extract_filing_html_directly c7fetch (fun _ => none) c7row).2.2
      = "✅ Success (direct)" ∧
    (extract_filing_html_directly c7fetch (fun _ => none) c7row).2.2
      ≠ "Success (direct)" := by decide

/-- Claim C7 (amended): on row
`{Filename: "edgar/data/320193/0000320193-20-000096.txt", Form Type: "10-K"}`
the fetcher takes the direct-document branch (the filename carries a
document extension), requests exactly
`https://www.sec.gov/Archives/edgar/data/320193/0000320193-20-000096.txt`
(the stub answers 200 only for that URL), and returns the response body
with status `"✅ Success (direct)"`. -/
theorem c7_direct_layout_example :
    hasDocExt (sanitizeFilename c7row.filename) = true ∧
    extract_filing_html_directly c7fetch (fun _ => none) c7row
      = (some "https://www.sec.gov/Archives/edgar/data/320193/0000320193-20-000096.txt",
         some "BODY", "✅ Success (direct)") := by decide

/-- Claim C2: the retry loop never calls the per-row fetch more than
`retry_limit` times; with an always-failing fetch it calls it exactly
`retry_limit` times with a sleep after each failed attempt, ends with no
content, and the loop body then appends the row to the buffer as a
failure record. -/
theorem c2_retry_loop_bounded (limit : Nat)
    (attempt : Nat → Option String × Option String × String)
    (fetch : Row → Option String × Option String × String)
    (clean : String → String) (a : Args) (rg i : Nat) (row : Row) (st : RunState) :
    (retryLoop attempt limit).calls ≤ limit ∧
    ((∀ k, (attempt k).2.1 = none) →
      (retryLoop attempt limit).calls = limit ∧
      (retryLoop attempt limit).sleeps = limit ∧
      (retryLoop attempt limit).html = none) ∧
    (a.maxFilings = 0 → (fetch row).2.1 = none →
      (processRow fetch clean a rg i row st).1.buffer
        = st.buffer ++ [Rec.failure (retryLoop (fun _ => fetch row) a.retryLimit).status
            (retryLoop (fun _ => fetch row) a.retryLimit).url row]) := by
  refine ⟨retryGo_calls_le attempt limit 0,
    fun hf => retryGo_fail attempt hf limit 0, ?_⟩
  intro hmax hf
  have hhtml : (retryLoop (fun _ => fetch row) a.retryLimit).html = none :=
    (retryGo_fail (fun _ => fetch row) (fun _ => hf) a.retryLimit 0).2.2
  simp only [processRow]
  rw [if_neg (by simp [hmax])]
  rw [hhtml]
  split
  · split <;> simp [persistCkpt]
  · rename_i html heq
    cases heq

/-- Claim C2 witness: three failing attempts on a two-try budget. -/
theorem c2_retry_loop_bounded_witness :
    (retryLoop (fun _ => ((none : Option String), (none : Option String), "err")) 3).calls
      = 3 ∧
    (processRow (fun _ => ((none : Option String), (none : Option String), "err"))
        id exArgs 0 0 exRow0 (initState none)).1.buffer
      = (initState none).buffer ++
          [Rec.failure (retryLoop
              (fun _ => ((none : Option String), (none : Option String), "err"))
              exArgs.retryLimit).status
            (retryLoop (fun _ => ((none : Option String), (none : Option String), "err"))
              exArgs.retryLimit).url exRow0] :=
  ⟨((c2_retry_loop_bounded 3 (fun _ => (none, none, "err"))
      (fun _ => (none, none, "err")) id exArgs 0 0 exRow0 (initState none)).2.1
      (fun _ => rfl)).1,
   (c2_retry_loop_bounded 3 (fun _ => (none, none, "err"))
      (fun _ => (none, none, "err")) id exArgs 0 0 exRow0 (initState none)).2.2 rfl rfl⟩

/-- Claim C1: the interruption-resume equivalence FAILS on the code.
With a deterministic always-succeeding stub, one rowgroup `[row0, row1]`
and flush threshold 1, the checkpoint persisted by the first flush
records `row_in_rowgroup = 0` — the index of the row already written
into part 0 (`flush_part` saves `current_row_index`, not the next row).
A run interrupted right after that flush and resumed from the saved
checkpoint re-attempts row 0, so row 0's Fetch Result appears twice
across the two runs' parts while the uninterrupted run emits it once. -/
theorem c1_resume_duplicates_flushed_row :
    exFlush0.2.rowgroup = 0 ∧ exFlush0.2.row_in_rowgroup = 0 ∧
    exCombined.count exRec0 = 2 ∧ exUninterrupted.count exRec0 = 1 := by decide

/-- Claim C8: in every run (any fetch stub, cleaner, inputs, and loaded
checkpoint) with a positive flush threshold, every written output part
holds at most `checkpoint-every` successful Fetch Results: the per-part
counter counts only successes, a flush fires as soon as it reaches the
threshold, and flushing resets it. -/
theorem c8_parts_respect_flush_threshold
    (fetch : Row → Option String × Option String × String)
    (clean : String → String) (a : Args) (rgs : List (List Row))
    (ckpt0 : Option Ckpt) (he : 1 ≤ a.checkpointEvery) :
    ∀ p ∈ (mainRun fetch clean a rgs ckpt0).parts, sCount p.2 ≤ a.checkpointEvery :=
  inv_mainRun fetch clean a rgs ckpt0 he

/-- Claim C8 witness: the first part of the concrete run holds one
success, within the threshold 1. -/
theorem c8_parts_respect_flush_threshold_witness :
    sCount [exRec0] ≤ exArgs.checkpointEvery :=
  c8_parts_respect_flush_threshold exFetch id exArgs [[exRow0, exRow1]] none
    (by decide) (0, [exRec0]) (by decide)

/-- Claim C9: rerunning the quarter-merge pass over inputs `{A, B}` with
`A` already in the manifest processes and appends only `B`: the new-file
set is the listing minus the manifest, and the manifest afterwards
contains exactly `{A, B}` with a single entry for `A`. -/
theorem c9_manifest_rerun_no_duplicates (A B t0 now : String) (bf : Nat)
    (hAB : A ≠ B) (hbf : 1 ≤ bf) :
    (runPass bf (some [⟨A, t0⟩]) [A, B] now).1 = [B] ∧
    read_manifest (runPass bf (some [⟨A, t0⟩]) [A, B] now).2 = [A, B] ∧
    (read_manifest (runPass bf (some [⟨A, t0⟩]) [A, B] now).2).count A = 1 := by
  have hBA : ¬ (B = A) := fun h => hAB h.symm
  obtain ⟨m, rfl⟩ : ∃ m, bf = m + 1 := ⟨bf - 1, by omega⟩
  have hchunk : chunkList (m + 1) [B] = [[B]] := by
    simp [chunkList, chunkGo]
  refine ⟨?_, ?_, ?_⟩ <;>
    simp [runPass, read_manifest, append_manifest, hBA, hAB, hchunk,
      List.filter, List.count_cons]

/-- Claim C9 witness at concrete URIs and the default batch size. -/
theorem c9_manifest_rerun_no_duplicates_witness :
    (runPass 250 (some [⟨"gs://b/a.parquet", "t0"⟩])
        ["gs://b/a.parquet", "gs://b/b.parquet"] "t1").1 = ["gs://b/b.parquet"] ∧
    read_manifest (runPass 250 (some [⟨"gs://b/a.parquet", "t0"⟩])
        ["gs://b/a.parquet", "gs://b/b.parquet"] "t1").2
      = ["gs://b/a.parquet", "gs://b/b.parquet"] ∧
    (read_manifest (runPass 250 (some [⟨"gs://b/a.parquet", "t0"⟩])
        ["gs://b/a.parquet", "gs://b/b.parquet"] "t1").2).count "gs://b/a.parquet" = 1 :=
  c9_manifest_rerun_no_duplicates "gs://b/a.parquet" "gs://b/b.parquet" "t0" "t1" 250
    (by decide) (by decide)

end EdgarPipeline
